import Mathlib

/-!
Shallow embedding of the core of the `tv-renamer` backend
(`src/backend/mod.rs`): the template-driven destination renderer
(`get_destination`), the batch target resolver (`get_targets`), the
directory scanner (`get_seasons` / `get_episodes`) and the season-number
heuristic (`derive_season_number`).

Modelling conventions:
* Rust `String` / `PathBuf` / `&str` become Lean `String` (paths are their
  UTF-8 text; `to_string_lossy` on valid UTF-8 is the identity).
* Rust `usize` becomes `Nat`; the explicit narrowing casts `as u32` at the
  TVDB episode-lookup call sites become explicit `% 2 ^ 32`.
* The external TVDB client (`tvdb` crate) is an opaque collaborator: it is
  modelled as a record of two possibly-failing functions, and every call the
  resolver makes to it is recorded in an explicit call log.
* The filesystem is modelled as the data `fs::read_dir` hands back: a
  possibly-failing list of possibly-failing entries, each entry carrying a
  path and a possibly-failing metadata record.
* A Rust panic (`unwrap` / out-of-bounds index) is a distinct outcome of the
  resolver, separate from its `Err` channel.
-/

namespace TvRenamer

/-- Embedding of `TemplateToken` from `src/backend/tokenizer.rs`, with exactly the variants
used by `src/backend/mod.rs`: a literal character, the series name, the season
number, the episode number, and the TVDB episode title. -/
inductive TemplateToken : Type
  | Character (value : Char)
  | Series
  | Season
  | Episode
  | TVDB
deriving DecidableEq, Repr

/-- The `Arguments` struct of `src/backend/mod.rs`. -/
structure Arguments : Type where
  automatic : Bool
  dry_run : Bool
  log_changes : Bool
  verbose : Bool
  directory : String
  series_name : String
  season_number : Nat
  episode_count : Nat
  pad_length : Nat
  template : List TemplateToken

/-- Modelled from the spec: `Digits::to_padded_string` lives in
`src/backend/traits.rs`, which is not among the provided sources; §4.2 of the
spec gives its contract: render a non-negative integer as a decimal string
left-padded with `pad_char` to at least `width` characters, and render the
full number unpadded when its natural digit count already exceeds `width`. -/
def to_padded_string (n : Nat) (pad_char : Char) (width : Nat) : String :=
  let digits := toString n
  ⟨List.replicate (width - digits.length) pad_char⟩ ++ digits

/-- The Unicode `White_Space` code points, as recognised by Rust's
`char::is_whitespace` (used by `str::trim`). -/
def rust_is_whitespace (c : Char) : Bool :=
  c.toNat ∈ ([0x9, 0xA, 0xB, 0xC, 0xD, 0x20, 0x85, 0xA0, 0x1680,
    0x2000, 0x2001, 0x2002, 0x2003, 0x2004, 0x2005, 0x2006, 0x2007,
    0x2008, 0x2009, 0x200A, 0x2028, 0x2029, 0x202F, 0x205F, 0x3000] : List Nat)

/-- Leading and trailing whitespace removed, as `str::trim` does. -/
def trimChars (cs : List Char) : List Char :=
  ((cs.dropWhile rust_is_whitespace).reverse.dropWhile rust_is_whitespace).reverse

/-- One character of the slash-to-hyphen substitution performed by
`filename.replace("/", "-")`. -/
def slashToHyphen (c : Char) : Char :=
  if c == '/' then '-' else c

/-- The sanitisation step of `get_destination` (`src/backend/mod.rs` lines
98–99): `filename.trim()` followed by `filename.replace("/", "-")`. The
pattern `"/"` is a single character, so the replacement is a character map. -/
def sanitize (s : String) : String :=
  ⟨(trimChars s.data).map slashToHyphen⟩

/-- Splitting at every occurrence of a separator character, the single-char
case of `str::split` / `String.splitOn` (`"a/b" ↦ ["a", "b"]`, `"" ↦ [""]`). -/
def splitOnChar (sep : Char) : List Char → List (List Char)
  | [] => [[]]
  | c :: rest =>
    if c = sep then [] :: splitOnChar sep rest
    else
      match splitOnChar sep rest with
      | [] => [[c]]
      | piece :: pieces => (c :: piece) :: pieces

/-- Rust `Path::file_name` on the textual form of a path: the final normal
component; empty and `.` components are skipped, and a trailing `..` yields
`none`. -/
def file_name_of (p : String) : Option String :=
  let comps := (splitOnChar '/' p.data).filter
    (fun c => !c.isEmpty && c ≠ ".".data)
  match comps.getLast? with
  | some c => if c = "..".data then none else some ⟨c⟩
  | none => none

/-- Rust `Path::extension` on the final component's text: the portion after the
last `.`, unless there is no `.` or the only `.` is the leading character. -/
def extension_of_name (name : String) : String :=
  let parts := splitOnChar '.' name.data
  match parts with
  | [] => ""
  | [_] => ""
  | first :: _ :: _ =>
    if first.isEmpty && parts.length = 2 then ""
    else ⟨parts.getLastD []⟩

/-- The expression `file.extension().unwrap_or(OsStr::new("")).to_str().unwrap_or("")` from
`get_destination`: the extension of the file's final component, or `""`. -/
def extension_of (p : String) : String :=
  match file_name_of p with
  | none => ""
  | some name => extension_of_name name

/-- One iteration of the template loop in `get_destination`
(`src/backend/mod.rs` lines 89–97): push the token's rendering onto the
accumulated filename. -/
def render_step (cfg : Arguments) (episode : Nat) (title : String)
    (acc : String) : TemplateToken → String
  | TemplateToken.Character value => acc.push value
  | TemplateToken.Series => acc ++ cfg.series_name
  | TemplateToken.Season => acc ++ toString cfg.season_number
  | TemplateToken.Episode => acc ++ to_padded_string episode '0' cfg.pad_length
  | TemplateToken.TVDB => acc ++ title

/-- Embedding of `Arguments::get_destination` (`src/backend/mod.rs` lines 84–111): build
`directory + "/"`, render the template tokens in order into a filename,
sanitise it, append `.` + extension when the source file's extension is
non-empty, and return the concatenation. -/
def get_destination (cfg : Arguments) (directory : String) (file : String)
    (episode : Nat) (title : String) : String :=
  let destination := directory ++ "/"
  let filename := cfg.template.foldl (render_step cfg episode title) ""
  let filename := sanitize filename
  let extension := extension_of file
  let filename :=
    if !extension.isEmpty then filename ++ "." ++ extension else filename
  destination ++ filename

/-- ASCII lowercasing, one character of `str::to_lowercase` (the directory
names the heuristic is aimed at are ASCII; Unicode special casing is not
modelled). -/
def lowerChars (cs : List Char) : List Char :=
  cs.map Char.toLower

/-- Remove every occurrence of the substring `"season"`, left to right and
non-overlapping, as `str::replace("season", "")` does. -/
def removeSeason : List Char → List Char
  | 's' :: 'e' :: 'a' :: 's' :: 'o' :: 'n' :: rest => removeSeason rest
  | c :: rest => c :: removeSeason rest
  | [] => []

/-- Rust `str::parse::<usize>()`: an optional leading `+`, then one or more ASCII
digits, with the value required to fit in 64 bits. -/
def parse_usize (cs : List Char) : Option Nat :=
  let digits := match cs with
    | '+' :: rest => rest
    | other => other
  if digits.isEmpty then none
  else if digits.all Char.isDigit then
    let value := digits.foldl (fun acc c => acc * 10 + (c.toNat - 48)) 0
    if value < 2 ^ 64 then some value else none
  else none

/-- The classification `derive_season_number` applies to the lowercased final
path component (`src/backend/mod.rs` lines 134–146). -/
def derive_season_from_name (name : String) : Option Nat :=
  let directory_name := lowerChars name.data
  if directory_name = "season0".data ∨ directory_name = "season 0".data ∨
      directory_name = "specials".data then
    some 0
  else
    let directory_name := removeSeason directory_name
    let directory_name := directory_name.filter (fun c => c ≠ ' ')
    parse_usize directory_name

/-- Embedding of `derive_season_number` (`src/backend/mod.rs` lines 133–147). The function
begins with `season.file_name().unwrap()`, which panics when the path has no
final component; the outer `Option` layer is that panic channel (`none` =
panic), the inner one the function's own result. -/
def derive_season_number (season : String) : Option (Option Nat) :=
  (file_name_of season).map derive_season_from_name

/-- The two logical operations of the external TVDB client consumed by
`get_targets`, over an opaque type `σ` of series search results:
`api.search(name, "en")` and `api.episode(&series, season, index)` (the latter
returning the episode's `episode_name`). Both may fail. -/
structure TvdbApi (σ : Type) : Type where
  search : String → String → Except Unit (List σ)
  episode : σ → Nat → Nat → Except Unit String

/-- A record of one call `get_targets` makes to the TVDB client. -/
inductive ApiCall (σ : Type) : Type
  | search (name lang : String)
  | episode (series : σ) (season index : Nat)
deriving DecidableEq

/-- The outcome of running `get_targets`: a Rust panic, an `Err(String)`, or
an `Ok` value. -/
inductive RunResult (α : Type) : Type
  | panic
  | err (msg : String)
  | ok (val : α)
deriving DecidableEq

/-- The `for file in episodes` loop of `get_targets` (`src/backend/mod.rs`
lines 63–79), with the series-search reply threaded in as `series_info` and
the calls made to the TVDB client recorded in order. `none` for `series_info`
models the `None` case of the option the code `unwrap`s; indexing `reply[0]`
on an empty reply is the other panic site. The `as u32` casts at the episode
lookup are the `% 2 ^ 32` reductions. -/
def targets_loop {σ : Type} (cfg : Arguments) (api : TvdbApi σ)
    (directory : String) (series_info : Option (List σ)) :
    List String → Nat → RunResult (List String) × List (ApiCall σ)
  | [], _ => (RunResult.ok [], [])
  | file :: rest, current_index =>
    if cfg.template.contains TemplateToken.TVDB then
      match series_info with
      | none => (RunResult.panic, [])
      | some reply =>
        match reply with
        | [] => (RunResult.panic, [])
        | series :: _ =>
          let call := ApiCall.episode series (cfg.season_number % 2 ^ 32)
            (current_index % 2 ^ 32)
          match api.episode series (cfg.season_number % 2 ^ 32)
              (current_index % 2 ^ 32) with
          | Except.error _ =>
            (RunResult.err ("episode '" ++ file ++ "' does not exist"), [call])
          | Except.ok title =>
            match targets_loop cfg api directory series_info rest
                (current_index + 1) with
            | (RunResult.ok output, log) =>
              (RunResult.ok
                (get_destination cfg directory file current_index title ::
                  output), call :: log)
            | (result, log) => (result, call :: log)
    else
      match targets_loop cfg api directory series_info rest
          (current_index + 1) with
      | (RunResult.ok output, log) =>
        (RunResult.ok
          (get_destination cfg directory file current_index "" :: output), log)
      | (result, log) => (result, log)

/-- Embedding of `Arguments::get_targets` (`src/backend/mod.rs` lines 50–81): when the
template contains the TVDB token, search the series once up front (a failure
is the terminal `Err("unable to get TVDB series information")`), then walk
the episode files with a running index. The second component is the log of
TVDB calls made, in order. -/
def get_targets {σ : Type} (cfg : Arguments) (api : TvdbApi σ)
    (directory : String) (episodes : List String) (episode_index : Nat) :
    RunResult (List String) × List (ApiCall σ) :=
  if cfg.template.contains TemplateToken.TVDB then
    match api.search cfg.series_name "en" with
    | Except.error _ =>
      (RunResult.err "unable to get TVDB series information",
        [ApiCall.search cfg.series_name "en"])
    | Except.ok reply =>
      let step := targets_loop cfg api directory (some reply) episodes
        episode_index
      (step.1, ApiCall.search cfg.series_name "en" :: step.2)
  else
    targets_loop cfg api directory none episodes episode_index

/-- The `fs::Metadata` facts the scanner consults. -/
structure EntryMetadata : Type where
  is_dir : Bool
  is_file : Bool
deriving DecidableEq

/-- One `fs::DirEntry`: a path and a possibly-failing metadata query. -/
structure FsDirEntry : Type where
  path : String
  metadata : Except Unit EntryMetadata

/-- What `fs::read_dir` hands back: a failure, or entries each of which may
itself fail to be read. -/
def ReadDir : Type := Except Unit (List (Except Unit FsDirEntry))

/-- Lexicographic comparison of character sequences by code point, the order
`str::cmp` induces on valid UTF-8 (byte order and code-point order agree). -/
def lex_le : List Char → List Char → Bool
  | [], _ => true
  | _ :: _, [] => false
  | a :: as, b :: bs =>
    if a.toNat < b.toNat then true
    else if b.toNat < a.toNat then false
    else lex_le as bs

/-- The comparator `|a, b| a.to_string_lossy().cmp(&b.to_string_lossy())`
used by the scanner's `sort_by`, as a relation on path strings. -/
def path_le_rel (a b : String) : Prop := lex_le a.data b.data = true

instance : DecidableRel path_le_rel := fun a b =>
  inferInstanceAs (Decidable (lex_le a.data b.data = true))

/-- The entry loop of `get_seasons` (`src/backend/mod.rs` lines 153–165):
first failing entry or metadata read aborts with its message; otherwise the
paths of the directory entries are collected in listing order. -/
def collect_seasons : List (Except Unit FsDirEntry) →
    Except String (List String)
  | [] => Except.ok []
  | Except.error _ :: _ => Except.error "unable to get directory entry"
  | Except.ok entry :: rest =>
    match entry.metadata with
    | Except.error _ => Except.error "unable to get metadata"
    | Except.ok metadata =>
      match collect_seasons rest with
      | Except.error e => Except.error e
      | Except.ok seasons =>
        Except.ok (if metadata.is_dir then entry.path :: seasons else seasons)

/-- Embedding of `get_seasons` (`src/backend/mod.rs` lines 150–171): list the immediate
subdirectories, sorted with `sort_by` on the full path strings. Rust's
`sort_by` is a stable sort; `path_le_rel` is a total order, so every stable
sort agrees with insertion sort on it. -/
def get_seasons (listing : ReadDir) : Except String (List String) :=
  match listing with
  | Except.error _ => Except.error "unable to read directory"
  | Except.ok files =>
    match collect_seasons files with
    | Except.error e => Except.error e
    | Except.ok seasons =>
      Except.ok (seasons.insertionSort path_le_rel)

/-- The entry loop of `get_episodes` (`src/backend/mod.rs` lines 177–187),
identical to `collect_seasons` but keeping regular files and with its own
entry-failure message. -/
def collect_episodes : List (Except Unit FsDirEntry) →
    Except String (List String)
  | [] => Except.ok []
  | Except.error _ :: _ => Except.error "unable to get file entry"
  | Except.ok entry :: rest =>
    match entry.metadata with
    | Except.error _ => Except.error "unable to get metadata"
    | Except.ok metadata =>
      match collect_episodes rest with
      | Except.error e => Except.error e
      | Except.ok episodes =>
        Except.ok (if metadata.is_file then entry.path :: episodes else episodes)

/-- Embedding of `get_episodes` (`src/backend/mod.rs` lines 174–193): list the immediate
regular files, sorted with `sort_by` on the full path strings exactly as in
`get_seasons`. -/
def get_episodes (listing : ReadDir) : Except String (List String) :=
  match listing with
  | Except.error _ => Except.error "unable to read file"
  | Except.ok files =>
    match collect_episodes files with
    | Except.error e => Except.error e
    | Except.ok episodes =>
      Except.ok (episodes.insertionSort path_le_rel)

/-- Claim C5: for every directory path with a final component,
`derive_season_number` lowercases the final path component and classifies it:
the exact lowercased forms "season0", "season 0" and "specials" yield `some 0`;
otherwise every occurrence of the substring "season" and every space character
is removed and the remainder is parsed as a non-negative integer, `some` of
that number on success and `none` on any parse failure; in particular
"Specials" yields 0, "Season 0" yields 0, "Season 1" yields 1, "season9"
yields 9, "Extras" yields none, and "Season 1 (Extended)" yields none. -/
theorem claim_C5 :
    derive_season_number "Specials" = some (some 0)
    ∧ derive_season_number "Season 0" = some (some 0)
    ∧ derive_season_number "Season 1" = some (some 1)
    ∧ derive_season_number "season9" = some (some 9)
    ∧ derive_season_number "Extras" = some none
    ∧ derive_season_number "Season 1 (Extended)" = some none
    ∧ (∀ p n, file_name_of p = some n →
        derive_season_number p = some (derive_season_from_name n))
    ∧ (∀ n : String, (lowerChars n.data = "season0".data ∨
        lowerChars n.data = "season 0".data ∨
        lowerChars n.data = "specials".data) →
        derive_season_from_name n = some 0)
    ∧ (∀ n : String, ¬(lowerChars n.data = "season0".data ∨
        lowerChars n.data = "season 0".data ∨
        lowerChars n.data = "specials".data) →
        derive_season_from_name n =
          parse_usize ((removeSeason (lowerChars n.data)).filter
            (fun c => c ≠ ' '))) := by
  refine ⟨by decide, by decide, by decide, by decide, by decide, by decide,
    ?_, ?_, ?_⟩
  · intro p n h
    unfold derive_season_number
    rw [h]
    rfl
  · intro n h
    unfold derive_season_from_name
    rw [if_pos h]
  · intro n h
    unfold derive_season_from_name
    rw [if_neg h]

/-- Witness for C5: the general classification rule applied at the concrete
path "Seasons/Season 7". -/
theorem claim_C5_witness :
    file_name_of "Seasons/Season 7" = some "Season 7" ∧
    derive_season_number "Seasons/Season 7" =
      some (derive_season_from_name "Season 7") :=
  ⟨by decide, claim_C5.2.2.2.2.2.2.1 "Seasons/Season 7" "Season 7" (by decide)⟩

def trim_spec (s : String) : String := ⟨trimChars s.data⟩

def replace_slash_spec (s : String) : String := ⟨s.data.map slashToHyphen⟩

/-- Claim C7: for every input string the sanitisation step first trims
leading and trailing whitespace and then replaces every path-separator
character with a hyphen, so the rendered name cannot introduce
subdirectories; in particular sanitising "  Foo/Bar  " yields "Foo-Bar". -/
theorem claim_C7 :
    (∀ s, sanitize s = replace_slash_spec (trim_spec s))
    ∧ sanitize "  Foo/Bar  " = "Foo-Bar"
    ∧ (∀ s, ((sanitize s).data.contains '/') = false) := by
  refine ⟨fun s => rfl, by decide, fun s => ?_⟩
  rw [List.contains_eq_any_beq]
  simp only [List.any_eq_false, sanitize, List.mem_map]
  rintro c ⟨d, _, rfl⟩
  unfold slashToHyphen
  split
  · decide
  · rename_i hd
    simp only [beq_iff_eq]
    intro hh
    subst hh
    exact hd rfl

/-- Claim C9: for every well-formed input the destination renderer
`get_destination` is pure and total: it is a function of its arguments alone
(so two calls with identical inputs yield identical paths) and it always
returns a path string, a degenerate empty template yielding just the
extension after the directory prefix. -/
theorem claim_C9 (cfg : Arguments) (directory file : String) (episode : Nat)
    (title : String) :
    get_destination cfg directory file episode title =
      get_destination cfg directory file episode title
    ∧ (cfg.template = [] →
        get_destination cfg directory file episode title =
          directory ++ "/" ++
            (if (extension_of file).isEmpty then ""
             else "." ++ extension_of file)) := by
  refine ⟨rfl, fun h => ?_⟩
  unfold get_destination
  rw [h]
  simp only [List.foldl_nil]
  have hsan : sanitize "" = "" := rfl
  rw [hsan]
  cases hext : (extension_of file).isEmpty <;> simp [String.append_assoc]

/-- Witness for C9: the empty-template case evaluated at a concrete
configuration and file. -/
theorem claim_C9_witness :
    get_destination
        ⟨false, false, false, false, "s", "n", 1, 1, 2, []⟩ "dir" "f.mkv" 3 "t" =
      "dir" ++ "/" ++
        (if (extension_of "f.mkv").isEmpty then ""
         else "." ++ extension_of "f.mkv") :=
  (claim_C9 ⟨false, false, false, false, "s", "n", 1, 1, 2, []⟩
    "dir" "f.mkv" 3 "t").2 rfl

/-- Claim C10: when the template contains the episode-title token, the
episode list is non-empty and the series search succeeds with an empty list
of matching series, `get_targets` panics (it indexes the first element of the
reply without checking for emptiness) instead of returning an error value. -/
theorem claim_C10 (σ : Type) (cfg : Arguments) (api : TvdbApi σ)
    (directory file : String) (rest : List String) (episode_index : Nat)
    (hc : cfg.template.contains TemplateToken.TVDB = true)
    (hs : api.search cfg.series_name "en" = Except.ok []) :
    (get_targets cfg api directory (file :: rest) episode_index).1 =
      RunResult.panic := by
  unfold get_targets
  rw [hc, hs]
  simp only [if_true]
  unfold targets_loop
  rw [hc]
  simp

/-- Witness for C10: a concrete configuration and client on which the
resolver panics. -/
theorem claim_C10_witness :
    (get_targets ⟨false, false, false, false, "s", "n", 1, 1, 2,
        [TemplateToken.TVDB]⟩
      (⟨fun _ _ => Except.ok ([] : List Unit), fun _ _ _ => Except.ok "t"⟩ :
        TvdbApi Unit)
      "dir" ["f.mkv"] 1).1 = RunResult.panic :=
  claim_C10 Unit _ _ "dir" "f.mkv" [] 1 rfl rfl

def token_text (cfg : Arguments) (episode : Nat) (title : String) :
    TemplateToken → String
  | TemplateToken.Character value => String.singleton value
  | TemplateToken.Series => cfg.series_name
  | TemplateToken.Season => toString cfg.season_number
  | TemplateToken.Episode => to_padded_string episode '0' cfg.pad_length
  | TemplateToken.TVDB => title

theorem render_step_eq (cfg : Arguments) (episode : Nat) (title acc : String)
    (tok : TemplateToken) :
    render_step cfg episode title acc tok =
      acc ++ token_text cfg episode title tok := by
  cases tok <;> rfl

theorem join_cons (s : String) (l : List String) :
    String.join (s :: l) = s ++ String.join l := by
  have h : ∀ (l : List String) (a b : String),
      l.foldl (· ++ ·) (a ++ b) = a ++ l.foldl (· ++ ·) b := by
    intro l
    induction l with
    | nil => intro a b; rfl
    | cons x xs ih =>
      intro a b
      simp only [List.foldl_cons, String.append_assoc]
      exact ih a (b ++ x)
  show (s :: l).foldl (· ++ ·) "" = s ++ l.foldl (· ++ ·) ""
  simp only [List.foldl_cons]
  have : ("" ++ s : String) = s ++ "" := by simp
  rw [this]
  exact h l s ""

theorem foldl_render (cfg : Arguments) (episode : Nat) (title : String)
    (toks : List TemplateToken) (acc : String) :
    toks.foldl (render_step cfg episode title) acc =
      acc ++ String.join (toks.map (token_text cfg episode title)) := by
  induction toks generalizing acc with
  | nil => simp [String.join]
  | cons t ts ih =>
    simp only [List.foldl_cons, List.map_cons, ih, render_step_eq, join_cons,
      String.append_assoc]

/-- Claim C1: for every config, directory, source file, episode index and
title, `get_destination` builds the filename body by iterating the template
tokens in order and appending a literal's character, the series name
verbatim, the season number as plain decimal, the episode index zero-padded
to the pad length, and the supplied title verbatim; it then sanitises the
body, appends `.` plus the extension verbatim when the source file's
extension is non-empty, and returns directory + separator + that result. -/
theorem claim_C1 (cfg : Arguments) (directory file : String) (episode : Nat)
    (title : String) :
    get_destination cfg directory file episode title =
      directory ++ "/" ++
        (let body := sanitize
          (String.join (cfg.template.map (token_text cfg episode title)))
         if (extension_of file).isEmpty then body
         else body ++ "." ++ extension_of file) := by
  unfold get_destination
  rw [foldl_render]
  have : ("" ++ String.join (cfg.template.map (token_text cfg episode title)))
      = String.join (cfg.template.map (token_text cfg episode title)) := by
    simp
  rw [this]
  cases hext : (extension_of file).isEmpty <;>
    simp [hext, String.append_assoc]

def is_search_call {σ : Type} : ApiCall σ → Bool
  | ApiCall.search _ _ => true
  | ApiCall.episode _ _ _ => false

theorem targets_loop_no_search {σ : Type} (cfg : Arguments) (api : TvdbApi σ)
    (directory : String) (series_info : Option (List σ))
    (episodes : List String) (current_index : Nat) :
    ((targets_loop cfg api directory series_info episodes
      current_index).2.countP (fun c => is_search_call c)) = 0 := by
  induction episodes generalizing current_index with
  | nil => rfl
  | cons file rest ih =>
    unfold targets_loop
    split
    · match series_info with
      | none => rfl
      | some [] => rfl
      | some (series :: tail) =>
        simp only []
        rcases hep : api.episode series (cfg.season_number % 2 ^ 32)
            (current_index % 2 ^ 32) with e | title
        · simp [List.countP_cons, is_search_call]
        · rcases hrec : targets_loop cfg api directory (some (series :: tail))
              rest (current_index + 1) with ⟨res, log⟩
          have h0 := ih (current_index + 1)
          rw [hrec] at h0
          cases res <;> simpa [List.countP_cons, is_search_call] using h0
    · rcases hrec : targets_loop cfg api directory series_info
          rest (current_index + 1) with ⟨res, log⟩
      have h0 := ih (current_index + 1)
      rw [hrec] at h0
      cases res <;> simpa using h0

/-- Claim C3: for every config and episode list the resolver performs the
series-search call exactly once per invocation if and only if the template
contains the episode-title token, and a failed search is terminal for the
whole batch: the resolver returns the series-lookup error with no partial
results and no per-file fallback. -/
theorem claim_C3 (σ : Type) (cfg : Arguments) (api : TvdbApi σ)
    (directory : String) (episodes : List String) (episode_index : Nat) :
    (((get_targets cfg api directory episodes episode_index).2.countP
        (fun c => is_search_call c)) =
      if cfg.template.contains TemplateToken.TVDB then 1 else 0)
    ∧ (cfg.template.contains TemplateToken.TVDB = true →
        api.search cfg.series_name "en" = Except.error () →
        get_targets cfg api directory episodes episode_index =
          (RunResult.err "unable to get TVDB series information",
            [ApiCall.search cfg.series_name "en"])) := by
  constructor
  · unfold get_targets
    cases hc : cfg.template.contains TemplateToken.TVDB with
    | false =>
      simp only [Bool.false_eq_true, if_false]
      exact targets_loop_no_search cfg api directory none episodes episode_index
    | true =>
      simp only [if_true]
      rcases hs : api.search cfg.series_name "en" with e | reply
      · simp [List.countP_cons, is_search_call]
      · have h0 := targets_loop_no_search cfg api directory (some reply)
          episodes episode_index
        simp only [List.countP_cons, h0]
        simp [is_search_call]
  · intro hc hs
    unfold get_targets
    rw [hc, hs]
    simp

/-- Witness for C3: a failing series search on a concrete configuration is
terminal with the series-lookup error message. -/
theorem claim_C3_witness :
    get_targets ⟨false, false, false, false, "s", "n", 1, 1, 2,
        [TemplateToken.TVDB]⟩
      (⟨fun _ _ => Except.error (), fun _ _ _ => Except.ok "t"⟩ :
        TvdbApi Unit)
      "dir" ["f.mkv"] 1 =
      (RunResult.err "unable to get TVDB series information",
        [ApiCall.search "n" "en"]) :=
  (claim_C3 Unit ⟨false, false, false, false, "s", "n", 1, 1, 2,
      [TemplateToken.TVDB]⟩
    (⟨fun _ _ => Except.error (), fun _ _ _ => Except.ok "t"⟩ : TvdbApi Unit)
    "dir" ["f.mkv"] 1).2 rfl rfl

theorem targets_loop_ep_fail {σ : Type} (cfg : Arguments) (api : TvdbApi σ)
    (directory : String) (series : σ) (tail : List σ)
    (episodes : List String) (current_index i : Nat)
    (h : i < episodes.length)
    (hc : cfg.template.contains TemplateToken.TVDB = true)
    (hok : ∀ j, j < i → ∃ t, api.episode series (cfg.season_number % 2 ^ 32)
      ((current_index + j) % 2 ^ 32) = Except.ok t)
    (hfail : api.episode series (cfg.season_number % 2 ^ 32)
      ((current_index + i) % 2 ^ 32) = Except.error ()) :
    (targets_loop cfg api directory (some (series :: tail)) episodes
        current_index).1 =
      RunResult.err ("episode '" ++ episodes.get ⟨i, h⟩ ++
        "' does not exist") := by
  induction episodes generalizing current_index i with
  | nil => exact absurd h (by simp)
  | cons file rest ih =>
    unfold targets_loop
    rw [hc]
    simp only [if_true]
    cases i with
    | zero =>
      rw [Nat.add_zero] at hfail
      rw [hfail]
      rfl
    | succ i' =>
      obtain ⟨t, ht⟩ := hok 0 (Nat.succ_pos i')
      rw [Nat.add_zero] at ht
      rw [ht]
      have h' : i' < rest.length := Nat.lt_of_succ_lt_succ h
      have hok' : ∀ j, j < i' → ∃ t, api.episode series
          (cfg.season_number % 2 ^ 32)
          ((current_index + 1 + j) % 2 ^ 32) = Except.ok t := by
        intro j hj
        have := hok (j + 1) (Nat.succ_lt_succ hj)
        rwa [show current_index + (j + 1) = current_index + 1 + j by omega]
          at this
      have hfail' : api.episode series (cfg.season_number % 2 ^ 32)
          ((current_index + 1 + i') % 2 ^ 32) = Except.error () := by
        rwa [show current_index + (i' + 1) = current_index + 1 + i' by omega]
          at hfail
      rcases hrec : targets_loop cfg api directory (some (series :: tail))
          rest (current_index + 1) with ⟨res, log⟩
      have hres := ih (current_index + 1) i' h' hok' hfail'
      rw [hrec] at hres
      simp only at hres
      rw [hres]
      rfl

/-- Claim C4: for every episode list, if the per-episode metadata lookup
fails for the file at index `i` (all earlier lookups succeeding), the
resolver returns an error naming that specific file and produces no output
list at all, so no output path exists for index `i` or any later index. -/
theorem claim_C4 (σ : Type) (cfg : Arguments) (api : TvdbApi σ)
    (directory : String) (episodes : List String) (episode_index : Nat)
    (i : Nat) (h : i < episodes.length) (series : σ) (tail : List σ)
    (hc : cfg.template.contains TemplateToken.TVDB = true)
    (hs : api.search cfg.series_name "en" = Except.ok (series :: tail))
    (hok : ∀ j, j < i → ∃ t, api.episode series (cfg.season_number % 2 ^ 32)
      ((episode_index + j) % 2 ^ 32) = Except.ok t)
    (hfail : api.episode series (cfg.season_number % 2 ^ 32)
      ((episode_index + i) % 2 ^ 32) = Except.error ()) :
    (get_targets cfg api directory episodes episode_index).1 =
      RunResult.err ("episode '" ++ episodes.get ⟨i, h⟩ ++
        "' does not exist") := by
  unfold get_targets
  rw [hc, hs]
  simp only [if_true]
  exact targets_loop_ep_fail cfg api directory series tail episodes
    episode_index i h hc hok hfail

/-- Witness for C4: a lookup failure at the second file of a concrete batch
aborts with an error naming that file. -/
theorem claim_C4_witness :
    (get_targets ⟨false, false, false, false, "s", "n", 1, 1, 2,
        [TemplateToken.TVDB]⟩
      (⟨fun _ _ => Except.ok [()],
        fun _ _ index => if index = 2 then Except.error () else Except.ok "t"⟩ :
        TvdbApi Unit)
      "dir" ["a.mkv", "b.mkv", "c.mkv"] 1).1 =
      RunResult.err ("episode '" ++ "b.mkv" ++ "' does not exist") :=
  claim_C4 Unit ⟨false, false, false, false, "s", "n", 1, 1, 2,
      [TemplateToken.TVDB]⟩
    (⟨fun _ _ => Except.ok [()],
      fun _ _ index => if index = 2 then Except.error () else Except.ok "t"⟩ :
      TvdbApi Unit)
    "dir" ["a.mkv", "b.mkv", "c.mkv"] 1 1 (by decide) () [] rfl rfl
    (fun j hj => by interval_cases j; exact ⟨"t", rfl⟩) rfl

def series_head {σ : Type} (cfg : Arguments) (api : TvdbApi σ) : Option σ :=
  match api.search cfg.series_name "en" with
  | Except.ok (s :: _) => some s
  | _ => none

def episode_title_of {σ : Type} (cfg : Arguments) (api : TvdbApi σ)
    (series : σ) (index : Nat) : String :=
  match api.episode series (cfg.season_number % 2 ^ 32) (index % 2 ^ 32) with
  | Except.ok t => t
  | Except.error _ => ""

def title_at {σ : Type} (cfg : Arguments) (api : TvdbApi σ)
    (index : Nat) : String :=
  if cfg.template.contains TemplateToken.TVDB then
    match series_head cfg api with
    | some s => episode_title_of cfg api s index
    | none => ""
  else ""

theorem targets_loop_ok_tvdb {σ : Type} (cfg : Arguments) (api : TvdbApi σ)
    (directory : String) (series : σ) (tail : List σ)
    (episodes : List String) (current_index : Nat)
    (out : List String) (log : List (ApiCall σ))
    (hc : cfg.template.contains TemplateToken.TVDB = true)
    (hrun : targets_loop cfg api directory (some (series :: tail)) episodes
      current_index = (RunResult.ok out, log)) :
    out.length = episodes.length
    ∧ (∀ i, i < episodes.length → ∀ (h : i < episodes.length),
        out.get? i = some (get_destination cfg directory
          (episodes.get ⟨i, h⟩) (current_index + i)
          (episode_title_of cfg api series (current_index + i))))
    ∧ log = (List.range episodes.length).map (fun j =>
        ApiCall.episode series (cfg.season_number % 2 ^ 32)
          ((current_index + j) % 2 ^ 32)) := by
  induction episodes generalizing current_index out log with
  | nil =>
    unfold targets_loop at hrun
    injection hrun with h1 h2
    injection h1 with h1
    subst h1
    subst h2
    refine ⟨rfl, ?_, rfl⟩
    intro i hi
    exact absurd hi (by simp)
  | cons file rest ih =>
    unfold targets_loop at hrun
    rw [hc] at hrun
    simp only [if_true] at hrun
    rcases hep : api.episode series (cfg.season_number % 2 ^ 32)
        (current_index % 2 ^ 32) with e | t
    · rw [hep] at hrun
      simp only at hrun
      exact absurd (congrArg Prod.fst hrun) (by simp)
    · rw [hep] at hrun
      simp only at hrun
      rcases hrec : targets_loop cfg api directory (some (series :: tail))
          rest (current_index + 1) with ⟨res, log'⟩
      rw [hrec] at hrun
      cases res with
      | panic => exact absurd (congrArg Prod.fst hrun) (by simp)
      | err m => exact absurd (congrArg Prod.fst hrun) (by simp)
      | ok output =>
        simp only at hrun
        injection hrun with h1 h2
        injection h1 with h1
        subst h1
        subst h2
        obtain ⟨ihlen, ihget, ihlog⟩ := ih (current_index + 1) output log' hrec
        refine ⟨by simp [ihlen], ?_, ?_⟩
        · intro i hi h
          cases i with
          | zero =>
            simp only [List.get?, List.get]
            congr 1
            rw [Nat.add_zero]
            congr 1
            unfold episode_title_of
            rw [hep]
          | succ j =>
            have hj : j < rest.length := Nat.lt_of_succ_lt_succ h
            have hgd := ihget j hj hj
            rw [show current_index + (j + 1) = current_index + 1 + j from by
              omega]
            exact hgd
        · rw [ihlog]
          simp only [List.length_cons]
          rw [List.range_succ_eq_map]
          simp only [List.map_cons, List.map_map, List.cons.injEq]
          refine ⟨by rw [Nat.add_zero], ?_⟩
          apply List.map_congr_left
          intro j _
          simp only [Function.comp_apply]
          congr 1
          omega

theorem targets_loop_ok_plain {σ : Type} (cfg : Arguments) (api : TvdbApi σ)
    (directory : String) (series_info : Option (List σ))
    (episodes : List String) (current_index : Nat)
    (out : List String) (log : List (ApiCall σ))
    (hc : cfg.template.contains TemplateToken.TVDB = false)
    (hrun : targets_loop cfg api directory series_info episodes
      current_index = (RunResult.ok out, log)) :
    out.length = episodes.length
    ∧ (∀ i, i < episodes.length → ∀ (h : i < episodes.length),
        out.get? i = some (get_destination cfg directory
          (episodes.get ⟨i, h⟩) (current_index + i) ""))
    ∧ log = [] := by
  induction episodes generalizing current_index out log with
  | nil =>
    unfold targets_loop at hrun
    injection hrun with h1 h2
    injection h1 with h1
    subst h1
    subst h2
    refine ⟨rfl, ?_, rfl⟩
    intro i hi
    exact absurd hi (by simp)
  | cons file rest ih =>
    unfold targets_loop at hrun
    rw [hc] at hrun
    simp only [Bool.false_eq_true, if_false] at hrun
    rcases hrec : targets_loop cfg api directory series_info
        rest (current_index + 1) with ⟨res, log'⟩
    rw [hrec] at hrun
    cases res with
    | panic => exact absurd (congrArg Prod.fst hrun) (by simp)
    | err m => exact absurd (congrArg Prod.fst hrun) (by simp)
    | ok output =>
      simp only at hrun
      injection hrun with h1 h2
      injection h1 with h1
      subst h1
      subst h2
      obtain ⟨ihlen, ihget, ihlog⟩ := ih (current_index + 1) output log' hrec
      refine ⟨by simp [ihlen], ?_, ihlog⟩
      intro i hi h
      cases i with
      | zero =>
        simp only [List.get?, List.get]
        rw [Nat.add_zero]
      | succ j =>
        have hj : j < rest.length := Nat.lt_of_succ_lt_succ h
        have hgd := ihget j hj hj
        rw [show current_index + (j + 1) = current_index + 1 + j from by
          omega]
        exact hgd

theorem get_targets_plain {σ : Type} (cfg : Arguments) (api : TvdbApi σ)
    (directory : String) (episodes : List String) (episode_index : Nat)
    (hc : cfg.template.contains TemplateToken.TVDB = false) :
    get_targets cfg api directory episodes episode_index =
      targets_loop cfg api directory none episodes episode_index := by
  unfold get_targets
  rw [hc]
  rfl

theorem get_targets_tvdb {σ : Type} (cfg : Arguments) (api : TvdbApi σ)
    (directory : String) (episodes : List String) (episode_index : Nat)
    (reply : List σ)
    (hc : cfg.template.contains TemplateToken.TVDB = true)
    (hs : api.search cfg.series_name "en" = Except.ok reply) :
    get_targets cfg api directory episodes episode_index =
      ((targets_loop cfg api directory (some reply) episodes
          episode_index).1,
        ApiCall.search cfg.series_name "en" ::
          (targets_loop cfg api directory (some reply) episodes
            episode_index).2) := by
  unfold get_targets
  rw [hc, hs]
  rfl

/-- Claim C2, amended: when `get_targets` succeeds the output list has
exactly the length of the input list and the i-th output path is the
rendering of the i-th input file with episode counter `starting index + i`;
any per-episode metadata lookup for file i is keyed by the config season
number reduced mod 2^32 and that counter value reduced mod 2^32 (the code
casts both to `u32`; below 2^32 these coincide with the season number and
the counter). -/
theorem claim_C2 (σ : Type) (cfg : Arguments) (api : TvdbApi σ)
    (directory : String) (episodes : List String) (episode_index : Nat)
    (out : List String)
    (hout : (get_targets cfg api directory episodes episode_index).1 =
      RunResult.ok out) :
    out.length = episodes.length
    ∧ (∀ i, i < episodes.length → ∀ (h : i < episodes.length),
        out.get? i = some (get_destination cfg directory
          (episodes.get ⟨i, h⟩) (episode_index + i)
          (title_at cfg api (episode_index + i))))
    ∧ (cfg.template.contains TemplateToken.TVDB = false →
        (get_targets cfg api directory episodes episode_index).2 = [])
    ∧ (cfg.template.contains TemplateToken.TVDB = true →
        ∀ f fs, episodes = f :: fs →
        ∃ s, series_head cfg api = some s ∧
          (get_targets cfg api directory episodes episode_index).2 =
            ApiCall.search cfg.series_name "en" ::
              (List.range episodes.length).map (fun j =>
                ApiCall.episode s (cfg.season_number % 2 ^ 32)
                  ((episode_index + j) % 2 ^ 32))) := by
  cases hc : cfg.template.contains TemplateToken.TVDB with
  | false =>
    have heq := get_targets_plain cfg api directory episodes episode_index hc
    rw [heq] at hout ⊢
    rcases hrun : targets_loop cfg api directory none episodes
        episode_index with ⟨res, log⟩
    rw [hrun] at hout
    simp only at hout
    subst hout
    obtain ⟨hlen, hget, hlog⟩ := targets_loop_ok_plain cfg api directory
      none episodes episode_index out log hc hrun
    refine ⟨hlen, ?_, fun _ => hlog,
      fun htrue => Bool.noConfusion htrue⟩
    intro i hi h
    have hg := hget i hi h
    have ht : title_at cfg api (episode_index + i) = "" := by
      unfold title_at
      rw [hc]
      rfl
    rw [ht]
    exact hg
  | true =>
    rcases hs : api.search cfg.series_name "en" with e | reply
    · have heq : (get_targets cfg api directory episodes episode_index).1 =
          RunResult.err "unable to get TVDB series information" := by
        unfold get_targets
        rw [hc, hs]
        rfl
      rw [heq] at hout
      exact absurd hout (by simp)
    · have heq := get_targets_tvdb cfg api directory episodes episode_index
        reply hc hs
      rw [heq] at hout ⊢
      simp only at hout
      rcases hrun : targets_loop cfg api directory (some reply) episodes
          episode_index with ⟨res, log⟩
      rw [hrun] at hout
      simp only at hout ⊢
      subst hout
      cases reply with
      | nil =>
        cases episodes with
        | nil =>
          unfold targets_loop at hrun
          injection hrun with h1 h2
          injection h1 with h1
          subst h1
          subst h2
          refine ⟨rfl, ?_, fun hfalse => Bool.noConfusion hfalse, ?_⟩
          · intro i hi
            exact absurd hi (by simp)
          · intro _ f fs hcons
            exact absurd hcons (by simp)
        | cons f fs =>
          unfold targets_loop at hrun
          rw [hc] at hrun
          simp only [if_true] at hrun
          exact absurd (congrArg Prod.fst hrun) (by simp)
      | cons series tail =>
        obtain ⟨hlen, hget, hlog⟩ := targets_loop_ok_tvdb cfg api directory
          series tail episodes episode_index out log hc hrun
        have hhead : series_head cfg api = some series := by
          unfold series_head
          rw [hs]
        refine ⟨hlen, ?_, fun hfalse => Bool.noConfusion hfalse,
          fun _ f fs _ => ⟨series, hhead, by rw [hlog]⟩⟩
        intro i hi h
        have hg := hget i hi h
        have ht : title_at cfg api (episode_index + i) =
            episode_title_of cfg api series (episode_index + i) := by
          unfold title_at
          rw [hc, hhead]
          rfl
        rw [ht]
        exact hg

def cfg_c2w : Arguments :=
  ⟨false, false, false, false, "s", "n", 1, 1, 2,
    [TemplateToken.Episode, TemplateToken.TVDB]⟩

def api_c2w : TvdbApi Unit :=
  ⟨fun _ _ => Except.ok [()], fun _ _ index => Except.ok (toString index)⟩

/-- Witness for C2: positional rendering at index 1 of a concrete
successful two-file batch. -/
theorem claim_C2_witness :
    (["d/033.mkv", "d/044.mkv"] : List String).get? 1 =
      some (get_destination cfg_c2w "d"
        ((["a.mkv", "b.mkv"] : List String).get ⟨1, by decide⟩) (3 + 1)
        (title_at cfg_c2w api_c2w (3 + 1))) :=
  (claim_C2 Unit cfg_c2w api_c2w "d" ["a.mkv", "b.mkv"] 3
    ["d/033.mkv", "d/044.mkv"] rfl).2.1 1 (by decide) (by decide)

def cfg_c2x : Arguments :=
  ⟨false, false, false, false, "d", "N", 0, 1, 1, [TemplateToken.TVDB]⟩

def api_c2x : TvdbApi Unit :=
  ⟨fun _ _ => Except.ok [()], fun _ _ _ => Except.ok "t"⟩

/-- Counterexample to C2 as stated: with starting episode index 2^32 the
lookup for file 0 is keyed by index 0, not by the counter value 2^32 — the
call keyed by the true counter value never appears in the call log. -/
theorem claim_C2_counterexample :
    (get_targets cfg_c2x api_c2x "d" ["f"] (2 ^ 32)).1 = RunResult.ok ["d/t"]
    ∧ (get_targets cfg_c2x api_c2x "d" ["f"] (2 ^ 32)).2 =
        [ApiCall.search "N" "en", ApiCall.episode () 0 0]
    ∧ ((get_targets cfg_c2x api_c2x "d" ["f"] (2 ^ 32)).2.contains
        (ApiCall.episode () 0 (2 ^ 32)) = false) :=
  ⟨rfl, rfl, by decide⟩

theorem lex_le_total : ∀ as bs : List Char,
    lex_le as bs = true ∨ lex_le bs as = true := by
  intro as
  induction as with
  | nil => intro bs; left; rfl
  | cons a as ih =>
    intro bs
    cases bs with
    | nil => right; rfl
    | cons b bs =>
      rcases Nat.lt_trichotomy a.toNat b.toNat with h | h | h
      · left
        simp [lex_le, h]
      · have h1 : ¬a.toNat < b.toNat := by omega
        have h2 : ¬b.toNat < a.toNat := by omega
        simpa [lex_le, h1, h2] using ih bs
      · right
        simp [lex_le, h]

theorem lex_le_trans : ∀ as bs cs : List Char,
    lex_le as bs = true → lex_le bs cs = true → lex_le as cs = true := by
  intro as
  induction as with
  | nil => intro bs cs _ _; rfl
  | cons a as ih =>
    intro bs cs hab hbc
    cases bs with
    | nil => exact absurd hab (by simp [lex_le])
    | cons b bs =>
      cases cs with
      | nil => exact absurd hbc (by simp [lex_le])
      | cons c cs =>
        rcases Nat.lt_trichotomy a.toNat b.toNat with h1 | h1 | h1 <;>
          rcases Nat.lt_trichotomy b.toNat c.toNat with h2 | h2 | h2 <;>
          simp only [lex_le] at hab hbc ⊢
        · rw [if_pos (show a.toNat < c.toNat from by omega)]
        · rw [if_pos (show a.toNat < c.toNat from by omega)]
        · rw [if_neg (show ¬b.toNat < c.toNat from by omega),
            if_pos (show c.toNat < b.toNat from by omega)] at hbc
          cases hbc
        · rw [if_pos (show a.toNat < c.toNat from by omega)]
        · rw [if_neg (show ¬a.toNat < b.toNat from by omega),
            if_neg (show ¬b.toNat < a.toNat from by omega)] at hab
          rw [if_neg (show ¬b.toNat < c.toNat from by omega),
            if_neg (show ¬c.toNat < b.toNat from by omega)] at hbc
          rw [if_neg (show ¬a.toNat < c.toNat from by omega),
            if_neg (show ¬c.toNat < a.toNat from by omega)]
          exact ih bs cs hab hbc
        · rw [if_neg (show ¬b.toNat < c.toNat from by omega),
            if_pos (show c.toNat < b.toNat from by omega)] at hbc
          cases hbc
        · rw [if_neg (show ¬a.toNat < b.toNat from by omega),
            if_pos (show b.toNat < a.toNat from by omega)] at hab
          cases hab
        · rw [if_neg (show ¬a.toNat < b.toNat from by omega),
            if_pos (show b.toNat < a.toNat from by omega)] at hab
          cases hab
        · rw [if_neg (show ¬a.toNat < b.toNat from by omega),
            if_pos (show b.toNat < a.toNat from by omega)] at hab
          cases hab

instance : IsTotal String path_le_rel :=
  ⟨fun a b => lex_le_total a.data b.data⟩

instance : IsTrans String path_le_rel :=
  ⟨fun a b c => lex_le_trans a.data b.data c.data⟩

def entry_paths (files : List (Except Unit FsDirEntry)) : List String :=
  files.filterMap (fun entry =>
    match entry with
    | Except.ok e => some e.path
    | Except.error _ => none)

theorem collect_seasons_ok (files : List (Except Unit FsDirEntry))
    (l : List String) (h : collect_seasons files = Except.ok l) :
    l.Sublist (entry_paths files)
    ∧ (∀ p, p ∈ l ↔ ∃ md : EntryMetadata,
        Except.ok (FsDirEntry.mk p (Except.ok md)) ∈ files ∧
          md.is_dir = true) := by
  induction files generalizing l with
  | nil =>
    injection h with h
    subst h
    exact ⟨List.Sublist.refl _, by simp⟩
  | cons entry rest ih =>
    cases entry with
    | error e => exact absurd h (by simp [collect_seasons])
    | ok e =>
      obtain ⟨pa, meta⟩ := e
      cases meta with
      | error e' => exact absurd h (by simp [collect_seasons])
      | ok md =>
        unfold collect_seasons at h
        simp only at h
        rcases hrest : collect_seasons rest with e' | seasons
        · rw [hrest] at h
          cases h
        · rw [hrest] at h
          simp only at h
          injection h with h
          obtain ⟨ihsub, ihmem⟩ := ih seasons hrest
          have hpaths : entry_paths (Except.ok ⟨pa, Except.ok md⟩ :: rest) =
              pa :: entry_paths rest := rfl
          cases hdir : md.is_dir with
          | true =>
            rw [hdir] at h
            simp only [if_true] at h
            subst h
            constructor
            · rw [hpaths]
              exact ihsub.cons₂ pa
            · intro p
              constructor
              · intro hp
                rcases List.mem_cons.mp hp with hp | hp
                · subst hp
                  exact ⟨md, List.mem_cons_self _ _, hdir⟩
                · obtain ⟨md', hm, hd⟩ := (ihmem p).mp hp
                  exact ⟨md', List.mem_cons_of_mem _ hm, hd⟩
              · rintro ⟨md', hm, hd⟩
                rcases List.mem_cons.mp hm with hm | hm
                · injection hm with hm
                  injection hm with hm1 hm2
                  subst hm1
                  exact List.mem_cons_self _ _
                · exact List.mem_cons_of_mem _ ((ihmem p).mpr ⟨md', hm, hd⟩)
          | false =>
            rw [hdir] at h
            simp only [Bool.false_eq_true, if_false] at h
            subst h
            constructor
            · rw [hpaths]
              exact ihsub.cons pa
            · intro p
              constructor
              · intro hp
                obtain ⟨md', hm, hd⟩ := (ihmem p).mp hp
                exact ⟨md', List.mem_cons_of_mem _ hm, hd⟩
              · rintro ⟨md', hm, hd⟩
                rcases List.mem_cons.mp hm with hm | hm
                · injection hm with hm
                  injection hm with hm1 hm2
                  subst hm1
                  injection hm2 with hm2
                  subst hm2
                  rw [hdir] at hd
                  cases hd
                · exact (ihmem p).mpr ⟨md', hm, hd⟩

theorem collect_episodes_ok (files : List (Except Unit FsDirEntry))
    (l : List String) (h : collect_episodes files = Except.ok l) :
    l.Sublist (entry_paths files)
    ∧ (∀ p, p ∈ l ↔ ∃ md : EntryMetadata,
        Except.ok (FsDirEntry.mk p (Except.ok md)) ∈ files ∧
          md.is_file = true) := by
  induction files generalizing l with
  | nil =>
    injection h with h
    subst h
    exact ⟨List.Sublist.refl _, by simp⟩
  | cons entry rest ih =>
    cases entry with
    | error e => exact absurd h (by simp [collect_episodes])
    | ok e =>
      obtain ⟨pa, meta⟩ := e
      cases meta with
      | error e' => exact absurd h (by simp [collect_episodes])
      | ok md =>
        unfold collect_episodes at h
        simp only at h
        rcases hrest : collect_episodes rest with e' | seasons
        · rw [hrest] at h
          cases h
        · rw [hrest] at h
          simp only at h
          injection h with h
          obtain ⟨ihsub, ihmem⟩ := ih seasons hrest
          have hpaths : entry_paths (Except.ok ⟨pa, Except.ok md⟩ :: rest) =
              pa :: entry_paths rest := rfl
          cases hfile : md.is_file with
          | true =>
            rw [hfile] at h
            simp only [if_true] at h
            subst h
            constructor
            · rw [hpaths]
              exact ihsub.cons₂ pa
            · intro p
              constructor
              · intro hp
                rcases List.mem_cons.mp hp with hp | hp
                · subst hp
                  exact ⟨md, List.mem_cons_self _ _, hfile⟩
                · obtain ⟨md', hm, hd⟩ := (ihmem p).mp hp
                  exact ⟨md', List.mem_cons_of_mem _ hm, hd⟩
              · rintro ⟨md', hm, hd⟩
                rcases List.mem_cons.mp hm with hm | hm
                · injection hm with hm
                  injection hm with hm1 hm2
                  subst hm1
                  exact List.mem_cons_self _ _
                · exact List.mem_cons_of_mem _ ((ihmem p).mpr ⟨md', hm, hd⟩)
          | false =>
            rw [hfile] at h
            simp only [Bool.false_eq_true, if_false] at h
            subst h
            constructor
            · rw [hpaths]
              exact ihsub.cons pa
            · intro p
              constructor
              · intro hp
                obtain ⟨md', hm, hd⟩ := (ihmem p).mp hp
                exact ⟨md', List.mem_cons_of_mem _ hm, hd⟩
              · rintro ⟨md', hm, hd⟩
                rcases List.mem_cons.mp hm with hm | hm
                · injection hm with hm
                  injection hm with hm1 hm2
                  subst hm1
                  injection hm2 with hm2
                  subst hm2
                  rw [hfile] at hd
                  cases hd
                · exact (ihmem p).mpr ⟨md', hm, hd⟩

/-- Claim C6: for every readable directory whose entries carry pairwise
distinct paths, `get_seasons` returns exactly the immediate subdirectories
(file entries excluded) and `get_episodes` exactly the immediate files
(directory entries excluded), and both lists are sorted ascending by
lexicographic comparison of the full path string and contain no duplicate
paths. -/
theorem claim_C6 (files : List (Except Unit FsDirEntry))
    (hnd : (entry_paths files).Nodup) :
    (∀ out, get_seasons (Except.ok files) = Except.ok out →
      List.Sorted path_le_rel out ∧ out.Nodup ∧
      (∀ p, p ∈ out ↔ ∃ md : EntryMetadata,
        Except.ok (FsDirEntry.mk p (Except.ok md)) ∈ files ∧
          md.is_dir = true))
    ∧ (∀ out, get_episodes (Except.ok files) = Except.ok out →
      List.Sorted path_le_rel out ∧ out.Nodup ∧
      (∀ p, p ∈ out ↔ ∃ md : EntryMetadata,
        Except.ok (FsDirEntry.mk p (Except.ok md)) ∈ files ∧
          md.is_file = true)) := by
  constructor
  · intro out hout
    unfold get_seasons at hout
    simp only at hout
    rcases hcol : collect_seasons files with e | seasons
    · rw [hcol] at hout
      cases hout
    · rw [hcol] at hout
      simp only at hout
      injection hout with hout
      subst hout
      obtain ⟨hsub, hmem⟩ := collect_seasons_ok files seasons hcol
      have hperm := List.perm_insertionSort path_le_rel seasons
      refine ⟨List.sorted_insertionSort path_le_rel seasons, ?_, ?_⟩
      · exact hperm.nodup_iff.mpr (hnd.sublist hsub)
      · intro p
        rw [hperm.mem_iff]
        exact hmem p
  · intro out hout
    unfold get_episodes at hout
    simp only at hout
    rcases hcol : collect_episodes files with e | episodes
    · rw [hcol] at hout
      cases hout
    · rw [hcol] at hout
      simp only at hout
      injection hout with hout
      subst hout
      obtain ⟨hsub, hmem⟩ := collect_episodes_ok files episodes hcol
      have hperm := List.perm_insertionSort path_le_rel episodes
      refine ⟨List.sorted_insertionSort path_le_rel episodes, ?_, ?_⟩
      · exact hperm.nodup_iff.mpr (hnd.sublist hsub)
      · intro p
        rw [hperm.mem_iff]
        exact hmem p

/-- Witness for C6: a concrete three-entry listing whose seasons output is
sorted and duplicate-free. -/
theorem claim_C6_witness :
    get_seasons (Except.ok [
        Except.ok (FsDirEntry.mk "b" (Except.ok ⟨true, false⟩)),
        Except.ok (FsDirEntry.mk "a" (Except.ok ⟨false, true⟩)),
        Except.ok (FsDirEntry.mk "c" (Except.ok ⟨true, false⟩))]) =
      Except.ok ["b", "c"]
    ∧ List.Sorted path_le_rel ["b", "c"]
    ∧ (["b", "c"] : List String).Nodup :=
  ⟨rfl,
    ((claim_C6 [Except.ok (FsDirEntry.mk "b" (Except.ok ⟨true, false⟩)),
        Except.ok (FsDirEntry.mk "a" (Except.ok ⟨false, true⟩)),
        Except.ok (FsDirEntry.mk "c" (Except.ok ⟨true, false⟩))]
      (by decide)).1 ["b", "c"] rfl).1,
    ((claim_C6 [Except.ok (FsDirEntry.mk "b" (Except.ok ⟨true, false⟩)),
        Except.ok (FsDirEntry.mk "a" (Except.ok ⟨false, true⟩)),
        Except.ok (FsDirEntry.mk "c" (Except.ok ⟨true, false⟩))]
      (by decide)).1 ["b", "c"] rfl).2.1⟩

theorem collect_seasons_error (files : List (Except Unit FsDirEntry))
    (e : String) (h : collect_seasons files = Except.error e) :
    e = "unable to get directory entry" ∨ e = "unable to get metadata" := by
  induction files with
  | nil => cases h
  | cons entry rest ih =>
    cases entry with
    | error e' =>
      injection h with h
      exact Or.inl h.symm
    | ok en =>
      unfold collect_seasons at h
      rcases hm : en.metadata with e' | md
      · rw [hm] at h
        injection h with h
        exact Or.inr h.symm
      · rw [hm] at h
        simp only at h
        rcases hrest : collect_seasons rest with e2 | seasons
        · rw [hrest] at h
          injection h with h
          subst h
          exact ih hrest
        · rw [hrest] at h
          simp only at h
          cases h

theorem collect_episodes_error (files : List (Except Unit FsDirEntry))
    (e : String) (h : collect_episodes files = Except.error e) :
    e = "unable to get file entry" ∨ e = "unable to get metadata" := by
  induction files with
  | nil => cases h
  | cons entry rest ih =>
    cases entry with
    | error e' =>
      injection h with h
      exact Or.inl h.symm
    | ok en =>
      unfold collect_episodes at h
      rcases hm : en.metadata with e' | md
      · rw [hm] at h
        injection h with h
        exact Or.inr h.symm
      · rw [hm] at h
        simp only at h
        rcases hrest : collect_episodes rest with e2 | seasons
        · rw [hrest] at h
          injection h with h
          subst h
          exact ih hrest
        · rw [hrest] at h
          simp only at h
          cases h

/-- Claim C8: when `get_seasons` or `get_episodes` fails, the returned
error distinguishes whether the failure occurred reading the directory
itself, reading an individual entry, or reading an entry's metadata — three
distinguishable messages per function, and every possible error is one of
the three. -/
theorem claim_C8 :
    get_seasons (Except.error ()) = Except.error "unable to read directory"
    ∧ get_seasons (Except.ok [Except.error ()]) =
        Except.error "unable to get directory entry"
    ∧ get_seasons
        (Except.ok [Except.ok (FsDirEntry.mk "p" (Except.error ()))]) =
        Except.error "unable to get metadata"
    ∧ get_episodes (Except.error ()) = Except.error "unable to read file"
    ∧ get_episodes (Except.ok [Except.error ()]) =
        Except.error "unable to get file entry"
    ∧ get_episodes
        (Except.ok [Except.ok (FsDirEntry.mk "p" (Except.error ()))]) =
        Except.error "unable to get metadata"
    ∧ (["unable to read directory", "unable to get directory entry",
        "unable to get metadata"] : List String).Nodup
    ∧ (["unable to read file", "unable to get file entry",
        "unable to get metadata"] : List String).Nodup
    ∧ (∀ (listing : ReadDir) (e : String),
        get_seasons listing = Except.error e →
        e ∈ ["unable to read directory", "unable to get directory entry",
          "unable to get metadata"])
    ∧ (∀ (listing : ReadDir) (e : String),
        get_episodes listing = Except.error e →
        e ∈ ["unable to read file", "unable to get file entry",
          "unable to get metadata"]) := by
  refine ⟨rfl, rfl, rfl, rfl, rfl, rfl, by decide, by decide, ?_, ?_⟩
  · intro listing e h
    cases listing with
    | error u =>
      injection h with h
      simp [h.symm]
    | ok files =>
      unfold get_seasons at h
      simp only at h
      rcases hcol : collect_seasons files with e2 | seasons
      · rw [hcol] at h
        injection h with h
        subst h
        rcases collect_seasons_error files e2 hcol with h | h <;> simp [h]
      · rw [hcol] at h
        simp only at h
        cases h
  · intro listing e h
    cases listing with
    | error u =>
      injection h with h
      simp [h.symm]
    | ok files =>
      unfold get_episodes at h
      simp only at h
      rcases hcol : collect_episodes files with e2 | episodes
      · rw [hcol] at h
        injection h with h
        subst h
        rcases collect_episodes_error files e2 hcol with h | h <;> simp [h]
      · rw [hcol] at h
        simp only at h
        cases h

/-- Witness for C8: the metadata-failure message produced by a concrete
listing is among the three documented season-scan errors. -/
theorem claim_C8_witness :
    "unable to get metadata" ∈ ["unable to read directory",
      "unable to get directory entry", "unable to get metadata"] :=
  claim_C8.2.2.2.2.2.2.2.2.1
    (Except.ok [Except.ok (FsDirEntry.mk "p" (Except.error ()))])
    "unable to get metadata" rfl

end TvRenamer
